import Mathlib

/-!
# Wire Motion Flipbook — verification of the data engine

A shallow embedding of the data normalization and domain-locking engine of
the wire-motion flipbook view (value coercion, row normalization, point
series resolution, domain computation, and cyclic point navigation),
together with theorems settling the specified properties.

Modeling conventions:
* JS numbers are modeled exactly: a `JSNum` is a finite rational or one of
  the non-finite values (NaN, ±Infinity).  Arithmetic on finite values is
  exact rational arithmetic.
* JS scalar cell values are the inductive `JSValue`; string-to-number
  parsing (`Number(string)`) is kept abstract as a `parse` parameter, so
  every theorem quantifies over all possible parse behaviors.
* JS objects (records, sheets, stores) are ordered key/value lists in
  insertion order, with first-match lookup; property assignment either
  overwrites in place or appends, as in JS.
-/

namespace WireViz

/-- A JavaScript number: a finite value (modeled exactly as a rational) or
one of the non-finite values NaN, +Infinity, -Infinity. -/
inductive JSNum where
  | finite (q : ℚ)
  | nan
  | posInf
  | negInf
deriving DecidableEq, Repr

/-- `Number.isFinite`. -/
def JSNum.isFinite : JSNum → Bool
  | .finite _ => true
  | _ => false

/-- A JavaScript scalar value as it can appear in a parsed sheet cell. -/
inductive JSValue where
  | null
  | undef
  | str (s : String)
  | num (n : JSNum)
  | boolean (b : Bool)
deriving DecidableEq, Repr

/-- `Number(v)`: JS numeric conversion.  String parsing is the abstract
parameter `parse`; `Number(null) = 0`, `Number(undefined) = NaN`,
booleans convert to 0/1. -/
def jsToNumber (parse : String → JSNum) : JSValue → JSNum
  | .null => .finite 0
  | .undef => .nan
  | .str s => parse s
  | .num n => n
  | .boolean b => .finite (if b then 1 else 0)

/-- `numberOrNull` (src/unnamed/part_000:121-125): null, undefined and the
empty string map to null; otherwise `Number(v)` if finite, else null. -/
def numberOrNull (parse : String → JSNum) (v : JSValue) : Option JSNum :=
  if v = .null ∨ v = .undef ∨ v = .str "" then none
  else
    let n := jsToNumber parse v
    if n.isFinite then some n else none

/-- `formatTime` (src/unnamed/part_000:127-130): time fields use the same
coercion, no unit conversion. -/
def formatTime (parse : String → JSNum) (v : JSValue) : Option JSNum :=
  numberOrNull parse v

/-- A raw record: a JS object as an ordered key/value list. -/
abbrev RawRecord := List (String × JSValue)

/-- A normalized series row: every field is a finite number or null
(`Record<string, number | null>` in the source). -/
abbrev SeriesRow := List (String × Option JSNum)

/-- JS property read `o[k]`: `none` models `undefined` (key absent). -/
def jsLookup {α : Type} (fs : List (String × α)) (k : String) : Option α :=
  (fs.find? (fun p => p.1 == k)).map (fun p => p.2)

/-- JS property assignment `o[k] = v`: overwrite in place if the key
exists, otherwise append as a new last key. -/
def jsSet {α : Type} (fs : List (String × α)) (k : String) (v : α) :
    List (String × α) :=
  if fs.any (fun p => p.1 == k) then
    fs.map (fun p => if p.1 == k then (k, v) else p)
  else fs ++ [(k, v)]

/-- The regex test `/t_k$/i.test(k)`: `k` ends with `t_k`, case-insensitively. -/
def isTimeKey (k : String) : Bool := k.toLower.endsWith "t_k"

/-- The field-map part of `coerceRow`: coerce every field by name. -/
def coerceFields (parse : String → JSNum) (r : RawRecord) : SeriesRow :=
  r.map (fun p =>
    (p.1, if isTimeKey p.1 then formatTime parse p.2 else numberOrNull parse p.2))

/-- The loose test `out[t_k] == null`: true when the key is absent
(`undefined`) or its value is null. -/
def tkIsNull (out : SeriesRow) : Bool :=
  match jsLookup out "t_k" with
  | none => true
  | some none => true
  | some (some _) => false

/-- One step of `coerceRows` (src/unnamed/part_000:134-145): coerce every
field by name, then, if `out[t_k] == null` and `r[t] != null`, fall back to
`out[t_k] = numberOrNull(r[t])`. -/
def coerceRow (parse : String → JSNum) (r : RawRecord) : SeriesRow :=
  let out := coerceFields parse r
  match jsLookup r "t" with
  | some v =>
      if tkIsNull out && v != JSValue.null && v != JSValue.undef then
        jsSet out "t_k" (numberOrNull parse v)
      else out
  | none => out

/-- `coerceRows` maps `coerceRow` over the record sequence. -/
def coerceRows (parse : String → JSNum) (rows : List RawRecord) :
    List SeriesRow :=
  rows.map (coerceRow parse)

/-- Re-embedding of a normalized cell as a JS value (a `number | null`
cell read back as a scalar). -/
def cellToJS : Option JSNum → JSValue
  | none => .null
  | some n => .num n

/-- Re-embedding of a normalized row as a raw record, for re-coercion. -/
def rowToJS (r : SeriesRow) : RawRecord := r.map (fun p => (p.1, cellToJS p.2))

/-! ## Metrics and series definitions (src/unnamed/part_000:71-102) -/

/-- One plotted line: raw/smoothed field-key pair and display label. -/
structure SeriesDef where
  keyRaw : String
  keySm : String
  label : String
deriving DecidableEq, Repr

/-- One charted metric: key, titles and its series definitions. -/
structure Metric where
  key : String
  title : String
  yLabel : String
  series : List SeriesDef
deriving DecidableEq, Repr

/-- The four fixed metrics, exactly as in the source. -/
def METRICS : List Metric :=
  [ { key := "disp", title := "Push/Slice per step", yLabel := "Displacement (mm)",
      series := [ { keyRaw := "push_mm", keySm := "push_mm_smooth", label := "Push" },
                  { keyRaw := "slice_mm", keySm := "slice_mm_smooth", label := "Slice" } ] },
    { key := "vel", title := "Push/Slice per second", yLabel := "Velocity (mm/s)",
      series := [ { keyRaw := "push_mm_s", keySm := "push_mm_s_smooth", label := "Push/s" },
                  { keyRaw := "slice_mm_s", keySm := "slice_mm_s_smooth", label := "Slice/s" } ] },
    { key := "theta", title := "Angle between motion and wire tangent", yLabel := "Angle θ (deg)",
      series := [ { keyRaw := "theta_deg", keySm := "theta_deg_smooth", label := "θ" } ] },
    { key := "ratio", title := "Slide-Push Ratio", yLabel := "Slide-Push Ratio",
      series := [ { keyRaw := "ratio", keySm := "ratio_smooth", label := "ratio" } ] } ]

/-! ## Domain engine (src/unnamed/part_000:147-234) -/

/-- One update of the running (lo, hi) pair by a freshly seen finite value:
`if (v < lo) lo = v; if (v > hi) hi = v`.  `none` models the initial
`lo = +Infinity, hi = -Infinity` state, which any finite value replaces. -/
def updMinMax1 (acc : Option (ℚ × ℚ)) (v : ℚ) : Option (ℚ × ℚ) :=
  match acc with
  | none => some (v, v)
  | some lh => some (if v < lh.1 then v else lh.1, if v > lh.2 then v else lh.2)

/-- Fold a list of seen values into the running (lo, hi) accumulator. -/
def updMinMax (acc : Option (ℚ × ℚ)) (vs : List ℚ) : Option (ℚ × ℚ) :=
  vs.foldl updMinMax1 acc

/-- The active field key of a series definition:
`useSmoothed ? s.keySm : s.keyRaw`. -/
def activeKey (sm : Bool) (s : SeriesDef) : String :=
  if sm then s.keySm else s.keyRaw

/-- The guard `v != null && Number.isFinite(v)` on a property read:
passes exactly for a present, non-null, finite cell. -/
def finiteCell : Option (Option JSNum) → Option ℚ
  | some (some (JSNum.finite q)) => some q
  | _ => none

/-- The finite active-field values a row contributes to a metric, in
series order (the `m.series.forEach` body). -/
def rowMetricVals (sm : Bool) (m : Metric) (r : SeriesRow) : List ℚ :=
  m.series.filterMap (fun s => finiteCell (jsLookup r (activeKey sm s)))

/-- The finite `t_k` value of a row, if any (the time-scan guard). -/
def rowTk (r : SeriesRow) : Option ℚ := finiteCell (jsLookup r "t_k")

/-- The y-domain finish: fall back to `[-1, 1]` when no finite value was
seen, then `pad = (hi - lo) * 0.05 || 1` and `[lo - pad, hi + pad]`. -/
def yFromAcc (acc : Option (ℚ × ℚ)) : ℚ × ℚ :=
  let lh := match acc with
    | none => ((-1 : ℚ), (1 : ℚ))
    | some lh => lh
  let pad := if (lh.2 - lh.1) * (5 / 100) = 0 then 1 else (lh.2 - lh.1) * (5 / 100)
  (lh.1 - pad, lh.2 + pad)

/-- The x-domain finish: fall back to `[0, 1]` when no finite time was
seen, then `pad = (tMax - tMin) * 0.02 || 0.01`. -/
def xFromAcc (acc : Option (ℚ × ℚ)) : ℚ × ℚ :=
  let lh := match acc with
    | none => ((0 : ℚ), (1 : ℚ))
    | some lh => lh
  let pad := if (lh.2 - lh.1) * (2 / 100) = 0 then 1 / 100 else (lh.2 - lh.1) * (2 / 100)
  (lh.1 - pad, lh.2 + pad)

/-- The point series store: point identifier to normalized row sequence. -/
abbrev PointStore := List (String × List SeriesRow)

/-- The scan of `computeGlobalDomains` for one metric: every row of every
point, every series of the metric. -/
def metricAcc (sm : Bool) (store : PointStore) (m : Metric) : Option (ℚ × ℚ) :=
  store.foldl
    (fun acc p => p.2.foldl (fun a r => updMinMax a (rowMetricVals sm m r)) acc)
    none

/-- `computeGlobalDomains` (src/unnamed/part_000:147-177): per-metric
global y-domains over the whole store. -/
def computeGlobalDomains (store : PointStore) (sm : Bool) :
    List (String × (ℚ × ℚ)) :=
  METRICS.map (fun m => (m.key, yFromAcc (metricAcc sm store m)))

/-- `computeGlobalXDomain` (src/unnamed/part_000:179-197): the global time
domain over the whole store. -/
def computeGlobalXDomain (store : PointStore) : ℚ × ℚ :=
  xFromAcc (store.foldl
    (fun acc p => p.2.foldl (fun a r => updMinMax a (rowTk r).toList) acc)
    none)

/-- The result shape of `computeLocalDomains`. -/
structure LocalDomains where
  y : List (String × (ℚ × ℚ))
  x : ℚ × ℚ
deriving DecidableEq, Repr

/-- One `METRICS.forEach` iteration of `computeLocalDomains`: the inner row
loop updates the shared (tMin, tMax) accumulator and this metric's
(lo, hi) accumulator side by side. -/
def localMetricStep (sm : Bool) (rows : List SeriesRow) (tAcc : Option (ℚ × ℚ))
    (m : Metric) : Option (ℚ × ℚ) × (String × (ℚ × ℚ)) :=
  let res := rows.foldl
    (fun (acc : Option (ℚ × ℚ) × Option (ℚ × ℚ)) r =>
      (updMinMax acc.1 (rowTk r).toList, updMinMax acc.2 (rowMetricVals sm m r)))
    (tAcc, none)
  (res.1, (m.key, yFromAcc res.2))

/-- `computeLocalDomains` (src/unnamed/part_000:199-234): per-metric local
y-domains and the local time domain for one point's rows.  Note the time
scan runs inside the metric loop, so the rows' times are rescanned once
per metric, as in the source. -/
def computeLocalDomains (rows : List SeriesRow) (sm : Bool) : LocalDomains :=
  let z := METRICS.foldl
    (fun (acc : Option (ℚ × ℚ) × List (String × (ℚ × ℚ))) m =>
      let r := localMetricStep sm rows acc.1 m
      (r.1, acc.2 ++ [r.2]))
    ((none : Option (ℚ × ℚ)), ([] : List (String × (ℚ × ℚ))))
  ⟨z.2, xFromAcc z.1⟩

/-! ## Flipbook state and navigation (src/unnamed/part_000:252-326) -/

/-- The fixed ordered point set (src/unnamed/part_000:46). -/
def POINTS : List String :=
  ["A", "B", "C", "D", "E", "F", "G", "H", "I", "J", "K"]

/-- JS array read `arr[i]` with a signed index: out-of-range (including
negative) reads `undefined`. -/
def jsIndex (l : List String) (i : Int) : Option String :=
  if i < 0 then none else l.get? i.toNat

/-- `Array.prototype.indexOf`: index of the first occurrence, -1 if absent. -/
def jsIndexOf (l : List String) (s : String) : Int :=
  match l.findIdx? (fun x => x == s) with
  | some n => (n : Int)
  | none => -1

/-- `step(delta)` (src/unnamed/part_000:275-281):
`next = (idx + delta + POINTS.length) % POINTS.length` with the JS `%`
(truncated remainder, `Int.tmod`), then the array read at `next`. -/
def step (delta : Int) (p : String) : Option String :=
  let idx := jsIndexOf POINTS p
  let next := (idx + delta + (POINTS.length : Int)).tmod (POINTS.length : Int)
  jsIndex POINTS next

/-- A workbook as the engine consumes it: sheet name to raw record rows. -/
abbrev Workbook := List (String × List RawRecord)

/-- `buildPointKey` (src/unnamed/part_000:117-119). -/
def buildPointKey (p : String) : String := "per_step_" ++ p ++ "_smooth"

/-- `toArray(getSheet(wb, name))`: a missing sheet yields no rows. -/
def sheetRows (wb : Workbook) (name : String) : List RawRecord :=
  (jsLookup wb name).getD []

/-- The JS sort key `a.t_k ?? 0`: null or undefined time sorts as 0.
(Cells produced by coercion are always finite, so the non-finite cases
collapse with the nullish ones here.) -/
def tkOrZero (r : SeriesRow) : ℚ :=
  match jsLookup r "t_k" with
  | some (some (JSNum.finite q)) => q
  | _ => 0

/-- `.sort((a, b) => (a.t_k ?? 0) - (b.t_k ?? 0))`: stable ascending sort
by the t_k-or-zero key. -/
def sortByTk (rows : List SeriesRow) : List SeriesRow :=
  rows.mergeSort (fun a b => decide (tkOrZero a ≤ tkOrZero b))

/-- JS strict equality `cell === P` between a coerced cell (a number, null,
or undefined when the key is absent) and a string: `===` never equates
values of different runtime types, so every case is false. -/
def cellStrictEqStr (c : Option (Option JSNum)) (s : String) : Bool :=
  match c, s with
  | none, _ => false
  | some none, _ => false
  | some (some _), _ => false

/-- One point's series as `onUpload` resolves it
(src/unnamed/part_000:307-324): prefer the `per_step_{P}_smooth` sheet;
otherwise filter the already-coerced combined `per_step_all` rows by
`r[Point] === P` and re-coerce the matches; sort ascending by `t_k ?? 0`.
(The source hoists the coercion of `per_step_all` out of the point loop;
the coercion is pure, so computing it per point is the same value.) -/
def resolvePoint (parse : String → JSNum) (wb : Workbook) (P : String) :
    List SeriesRow :=
  let perStepAll := coerceRows parse (sheetRows wb "per_step_all")
  match jsLookup wb (buildPointKey P) with
  | some rows => sortByTk (coerceRows parse rows)
  | none =>
      let rows := perStepAll.filter (fun r => cellStrictEqStr (jsLookup r "Point") P)
      sortByTk (coerceRows parse (rows.map rowToJS))

/-- The store-building body of `onUpload` (src/unnamed/part_000:302-326):
one entry per point of the fixed set, built as a whole. -/
def resolveStore (parse : String → JSNum) (wb : Workbook) : PointStore :=
  POINTS.map (fun P => (P, resolvePoint parse wb P))

/-- The component state the claims speak about. -/
structure FlipbookState where
  workbook : Option Workbook
  currentPoint : String
  useSmoothed : Bool
  lockAxes : Bool
  pointSeries : PointStore
deriving Repr

/-- `onUpload` as a state transition: store the workbook handle and replace
the point series store with the freshly resolved one; nothing else. -/
def onUpload (parse : String → JSNum) (st : FlipbookState) (wb : Workbook) :
    FlipbookState :=
  { st with workbook := some wb, pointSeries := resolveStore parse wb }

/-! ## Invariants and test fixtures -/

/-- A demonstration workbook: no per-point sheets, only the combined sheet
with one row whose Point field is the string "A". -/
def demoWorkbook : Workbook :=
  [("per_step_all",
    [[("Point", JSValue.str "A"), ("t_k", JSValue.num (JSNum.finite 0)),
      ("push_mm", JSValue.num (JSNum.finite 1))]])]

/-- A normalized cell as coercion can produce it: null or a finite number. -/
def GoodCell (c : Option JSNum) : Prop :=
  c = none ∨ ∃ q : ℚ, c = some (JSNum.finite q)

/-- Well-formedness of a (lo, hi) accumulator: lo ≤ hi once seen. -/
def accWF : Option (ℚ × ℚ) → Prop
  | none => True
  | some lh => lh.1 ≤ lh.2

/-- The accumulator brackets a value. -/
def accBounds (acc : Option (ℚ × ℚ)) (v : ℚ) : Prop :=
  ∃ lh : ℚ × ℚ, acc = some lh ∧ lh.1 ≤ v ∧ v ≤ lh.2

/-- All finite values the store contributes to a metric, in scan order. -/
def storeMetricVals (sm : Bool) (m : Metric) (store : PointStore) : List ℚ :=
  store.flatMap (fun p => p.2.flatMap (rowMetricVals sm m))

/-- All finite time values of the store, in scan order. -/
def storeTkVals (store : PointStore) : List ℚ :=
  store.flatMap (fun p => p.2.flatMap (fun r => (rowTk r).toList))

/-- The self-test fixture rows of the two-point scenario
(src/unnamed/part_000:377-396). -/
def testRowA : SeriesRow :=
  [("t_k", some (JSNum.finite 0)), ("push_mm", some (JSNum.finite 0)),
   ("slice_mm", some (JSNum.finite 1)), ("push_mm_s", some (JSNum.finite 0)),
   ("slice_mm_s", some (JSNum.finite 2)),
   ("theta_deg", some (JSNum.finite 10)),
   ("ratio", some (JSNum.finite (1 / 2)))]

/-- Second fixture row of the two-point scenario. -/
def testRowB : SeriesRow :=
  [("t_k", some (JSNum.finite 1)), ("push_mm", some (JSNum.finite 5)),
   ("slice_mm", some (JSNum.finite (-1))),
   ("push_mm_s", some (JSNum.finite 3)),
   ("slice_mm_s", some (JSNum.finite (-2))),
   ("theta_deg", some (JSNum.finite (-20))),
   ("ratio", some (JSNum.finite 2))]

/-- The two-point fixture store of the self-test scenario. -/
def testStore : PointStore := [("A", [testRowA]), ("B", [testRowB])]

/-- The displacement metric, as a standalone fixture value. -/
def dispMetric : Metric :=
  { key := "disp", title := "Push/Slice per step",
    yLabel := "Displacement (mm)",
    series := [ { keyRaw := "push_mm", keySm := "push_mm_smooth", label := "Push" },
                { keyRaw := "slice_mm", keySm := "slice_mm_smooth", label := "Slice" } ] }

/-- The initial component state (src/unnamed/part_000:254-261): first
point, smoothed and locked on, empty store, no workbook. -/
def initialState : FlipbookState :=
  { workbook := none, currentPoint := "A", useSmoothed := true,
    lockAxes := true, pointSeries := [] }

/-! ## Helper lemmas -/

/-- Value coercion only ever produces null or a finite number. -/
theorem numberOrNull_shape (parse : String → JSNum) (v : JSValue) :
    numberOrNull parse v = none ∨
      ∃ q : ℚ, numberOrNull parse v = some (JSNum.finite q) := by
  unfold numberOrNull
  by_cases h : v = .null ∨ v = .undef ∨ v = .str ""
  · simp [h]
  · simp only [h, if_false]
    cases hj : jsToNumber parse v with
    | finite q => exact Or.inr ⟨q, by simp [hj, JSNum.isFinite]⟩
    | nan => simp [hj, JSNum.isFinite]
    | posInf => simp [hj, JSNum.isFinite]
    | negInf => simp [hj, JSNum.isFinite]

/-- The coerced-cell-against-string strict equality is false on every cell. -/
theorem cellStrictEqStr_false (c : Option (Option JSNum)) (s : String) :
    cellStrictEqStr c s = false := by
  rcases c with _ | c
  · rfl
  · rcases c with _ | c <;> rfl

/-- Element and first-occurrence index of the fixed point list, position by
position. -/
theorem points_at_spec : ∀ n : Fin 11,
    POINTS.get? n.1 = some (POINTS.getD n.1 "") ∧
    POINTS.getD n.1 "" ∈ POINTS ∧
    jsIndexOf POINTS (POINTS.getD n.1 "") = (n.1 : Int) := by decide

/-! ## C5: value coercion totality -/

/-- C5: for every input value, value coercion returns either a finite
number or the explicit missing marker (never NaN, never a non-finite
number; the function is total, so it never throws), and it maps the empty
string, null and undefined to the missing marker. -/
theorem C5_numberOrNull_finite_or_missing (parse : String → JSNum) :
    (∀ v : JSValue, numberOrNull parse v = none ∨
        ∃ q : ℚ, numberOrNull parse v = some (JSNum.finite q)) ∧
    numberOrNull parse (JSValue.str "") = none ∧
    numberOrNull parse JSValue.null = none ∧
    numberOrNull parse JSValue.undef = none :=
  ⟨numberOrNull_shape parse, rfl, rfl, rfl⟩

/-! ## C2: empty-input local domains -/

/-- C2 (counterexample): on an empty row sequence the local domain
computation does not return x = [-0.01, 1.01], nor y = [-2, 2] for the
displacement metric, as the claim states. -/
theorem C2_empty_local_not_as_claimed :
    (computeLocalDomains [] true).x ≠ ((-1 / 100 : ℚ), (101 / 100 : ℚ)) ∧
    jsLookup (computeLocalDomains [] true).y "disp" ≠
      some ((-2 : ℚ), (2 : ℚ)) := by
  constructor <;>
    · simp [computeLocalDomains, METRICS, localMetricStep, xFromAcc, yFromAcc,
        updMinMax, jsLookup]
      norm_num

/-- C2 (amended): on an empty row sequence (for either smoothed flag) the
local domain computation returns x = [-0.02, 1.02] — the default [0, 1]
padded by 2% of its span 1 — and, for each of the four metrics,
y = [-1.1, 1.1] — the fallback [-1, 1] padded by 5% of its span 2. -/
theorem C2_empty_local_domains (sm : Bool) :
    (computeLocalDomains [] sm).x = ((-1 / 50 : ℚ), (51 / 50 : ℚ)) ∧
    (computeLocalDomains [] sm).y =
      [("disp", ((-11 / 10 : ℚ), (11 / 10 : ℚ))),
       ("vel", ((-11 / 10 : ℚ), (11 / 10 : ℚ))),
       ("theta", ((-11 / 10 : ℚ), (11 / 10 : ℚ))),
       ("ratio", ((-11 / 10 : ℚ), (11 / 10 : ℚ)))] := by
  cases sm <;>
    · constructor <;>
        · simp [computeLocalDomains, METRICS, localMetricStep, xFromAcc,
            yFromAcc, updMinMax]
          norm_num

/-! ## C6 and C7: cyclic navigation -/

/-- C6 (counterexample): from the first point, step(-12) reads the array
at index -1 and yields undefined — not a member of the point set, contrary
to the claim that every integer delta wraps modulo the point-set size. -/
theorem C6_step_neg12_undefined : step (-12) "A" = none := by decide

/-- C6 (amended): for every point of the set and every delta that keeps
idx + delta + 11 nonnegative (in particular every delta ≥ -11, which
covers the ±1 steps the view issues), step lands on the point whose index
is (idx + delta) reduced modulo 11, a member of the fixed point set. -/
theorem C6_step_wraps (p : String) (delta : Int) (hp : p ∈ POINTS)
    (hd : 0 ≤ jsIndexOf POINTS p + delta + 11) :
    ∃ q, step delta p = some q ∧ q ∈ POINTS ∧
      jsIndexOf POINTS q = (jsIndexOf POINTS p + delta) % 11 := by
  have h11 : (POINTS.length : Int) = 11 := by decide
  set idx := jsIndexOf POINTS p with hidx
  set n := idx + delta + (11 : Int) with hn
  have htm : n.tmod 11 = n % 11 := Int.tmod_eq_emod hd (by norm_num)
  have hnonneg : 0 ≤ n % 11 := Int.emod_nonneg n (by norm_num)
  have hlt : n % 11 < 11 := Int.emod_lt_of_pos n (by norm_num)
  have hred : n % 11 = (idx + delta) % 11 := by
    have hne : n = (idx + delta) + 11 * 1 := by rw [hn]; ring
    rw [hne, Int.add_mul_emod_self_left]
  have hk : ((n % 11).toNat : Int) = n % 11 := Int.toNat_of_nonneg hnonneg
  have hklt : (n % 11).toNat < 11 := by omega
  obtain ⟨hget, hmem, hidxq⟩ := points_at_spec ⟨(n % 11).toNat, hklt⟩
  refine ⟨POINTS.getD (n % 11).toNat "", ?_, hmem, ?_⟩
  · show jsIndex POINTS ((idx + delta + (POINTS.length : Int)).tmod
      (POINTS.length : Int)) = _
    rw [h11, ← hn, htm]
    unfold jsIndex
    rw [if_neg (by omega)]
    exact hget
  · rw [hidxq, hk, hred]

/-- C7: single-step navigation is cyclic: advance(-1) undoes advance(+1)
in either order, and eleven forward steps return to the starting point. -/
theorem C7_navigation_cyclic (p : String) (hp : p ∈ POINTS) :
    (step 1 p).bind (step (-1)) = some p ∧
    (step (-1) p).bind (step 1) = some p ∧
    (fun o : Option String => o.bind (step 1))^[11] (some p) = some p := by
  fin_cases hp <;> exact ⟨by decide, by decide, by decide⟩

/-! ## Record lookup lemmas -/

/-- Lookup at a matching head entry. -/
theorem jsLookup_cons_of_pos {α : Type} (p : String × α) (l : List (String × α))
    (k : String) (h : p.1 = k) : jsLookup (p :: l) k = some p.2 := by
  unfold jsLookup
  rw [List.find?_cons_of_pos _ (by simpa using h)]
  rfl

/-- Lookup past a non-matching head entry. -/
theorem jsLookup_cons_of_neg {α : Type} (p : String × α) (l : List (String × α))
    (k : String) (h : p.1 ≠ k) : jsLookup (p :: l) k = jsLookup l k := by
  unfold jsLookup
  rw [List.find?_cons_of_neg _ (by simpa using h)]

/-- Looking up a key through a key-preserving value map. -/
theorem jsLookup_map {α β : Type} (g : String → α → β) (k : String) :
    ∀ l : List (String × α),
      jsLookup (l.map (fun p => (p.1, g p.1 p.2))) k = (jsLookup l k).map (g k)
  | [] => rfl
  | p :: l => by
    by_cases h : p.1 = k
    · rw [List.map_cons, jsLookup_cons_of_pos (p.1, g p.1 p.2) _ k h,
        jsLookup_cons_of_pos p _ k h, h]
      rfl
    · rw [List.map_cons, jsLookup_cons_of_neg (p.1, g p.1 p.2) _ k h,
        jsLookup_cons_of_neg p _ k h]
      exact jsLookup_map g k l

/-- If some entry of `l` has key `k`, the overwrite map of `jsSet` makes
the first such entry the looked-up one. -/
theorem jsLookup_overwrite_self {α : Type} (k : String) (v : α) :
    ∀ l : List (String × α), l.any (fun p => p.1 == k) = true →
      jsLookup (l.map (fun p => if p.1 == k then (k, v) else p)) k = some v
  | [], h => by simp at h
  | p :: l, h => by
    by_cases hp : p.1 = k
    · have hb : (p.1 == k) = true := by simpa using hp
      rw [List.map_cons, if_pos hb, jsLookup_cons_of_pos _ _ _ rfl]
    · have hb : (p.1 == k) = false := by simpa using hp
      have hl : l.any (fun p => p.1 == k) = true := by
        simpa [List.any_cons, hb] using h
      rw [List.map_cons, if_neg (by simp [hb]), jsLookup_cons_of_neg _ _ _ hp]
      exact jsLookup_overwrite_self k v l hl

/-- The overwrite map of `jsSet` does not disturb lookups at other keys. -/
theorem jsLookup_overwrite_ne {α : Type} (k k' : String) (v : α)
    (hne : k' ≠ k) :
    ∀ l : List (String × α),
      jsLookup (l.map (fun p => if p.1 == k then (k, v) else p)) k' =
        jsLookup l k'
  | [] => rfl
  | p :: l => by
    by_cases hp : p.1 = k
    · have hb : (p.1 == k) = true := by simpa using hp
      rw [List.map_cons, if_pos hb, jsLookup_cons_of_neg _ _ _ (Ne.symm hne),
        jsLookup_cons_of_neg _ _ _ (by rw [hp]; exact Ne.symm hne)]
      exact jsLookup_overwrite_ne k k' v hne l
    · have hb : (p.1 == k) = false := by simpa using hp
      rw [List.map_cons, if_neg (by simp [hb])]
      by_cases hp' : p.1 = k'
      · rw [jsLookup_cons_of_pos _ _ _ hp', jsLookup_cons_of_pos _ _ _ hp']
      · rw [jsLookup_cons_of_neg _ _ _ hp', jsLookup_cons_of_neg _ _ _ hp']
        exact jsLookup_overwrite_ne k k' v hne l

/-- Lookup skips a prefix that contains no entry with the key. -/
theorem jsLookup_append_of_none {α : Type} (l m : List (String × α))
    (k : String) (h : l.any (fun p => p.1 == k) = false) :
    jsLookup (l ++ m) k = jsLookup m k := by
  unfold jsLookup
  rw [List.find?_append]
  have hn : l.find? (fun p => p.1 == k) = none :=
    List.find?_eq_none.mpr (fun x hx => by
      simpa using List.any_eq_false.mp h x hx)
  rw [hn, Option.none_or]

/-- `o[k] = v` then reading `o[k]` gives `v`. -/
theorem jsLookup_jsSet_self {α : Type} (k : String) (v : α)
    (l : List (String × α)) : jsLookup (jsSet l k v) k = some v := by
  unfold jsSet
  by_cases ha : l.any (fun p => p.1 == k) = true
  · rw [if_pos ha]
    exact jsLookup_overwrite_self k v l ha
  · rw [if_neg ha, jsLookup_append_of_none l _ k (Bool.eq_false_iff.mpr ha),
      jsLookup_cons_of_pos _ _ _ rfl]

/-- `o[k] = v` does not disturb reads at other keys. -/
theorem jsLookup_jsSet_ne {α : Type} (k k' : String) (v : α) (hne : k' ≠ k)
    (l : List (String × α)) : jsLookup (jsSet l k v) k' = jsLookup l k' := by
  unfold jsSet
  by_cases ha : l.any (fun p => p.1 == k) = true
  · rw [if_pos ha]
    exact jsLookup_overwrite_ne k k' v hne l
  · rw [if_neg ha]
    unfold jsLookup
    rw [List.find?_append]
    have hn : List.find? (fun p => p.1 == k') [(k, v)] = none := by
      have : (k == k') = false := by simpa using Ne.symm hne
      simp [List.find?, this]
    rw [hn, Option.or_none]

/-- Lookup of a point's entry in the store map over the fixed point set. -/
theorem jsLookup_points_map {β : Type} (f : String → β) (P : String)
    (hP : P ∈ POINTS) :
    jsLookup (POINTS.map (fun Q => (Q, f Q))) P = some (f P) := by
  fin_cases hP <;>
    simp [POINTS, jsLookup, List.find?]

/-! ## C8: workbook upload replaces the store and only the store -/

/-- C8: `onUpload` replaces the point series store as a whole with the
series resolved from the new workbook — afterwards every point of the
fixed set is mapped to its freshly resolved series, and the store value is
a function of the new workbook alone, so nothing from the prior store
remains reachable — while the current point, the smoothed flag and the
locked flag are unchanged. -/
theorem C8_onUpload_replaces_store (parse : String → JSNum)
    (st : FlipbookState) (wb : Workbook) :
    (onUpload parse st wb).currentPoint = st.currentPoint ∧
    (onUpload parse st wb).useSmoothed = st.useSmoothed ∧
    (onUpload parse st wb).lockAxes = st.lockAxes ∧
    (onUpload parse st wb).pointSeries = resolveStore parse wb ∧
    ∀ P, P ∈ POINTS →
      jsLookup (onUpload parse st wb).pointSeries P =
        some (resolvePoint parse wb P) := by
  refine ⟨rfl, rfl, rfl, rfl, fun P hP => ?_⟩
  show jsLookup (resolveStore parse wb) P = _
  unfold resolveStore
  exact jsLookup_points_map (resolvePoint parse wb) P hP

/-! ## C1: the combined-sheet fallback filter -/

/-- C1 (the code contradicts the documented fallback): point A has no
per-point sheet, the combined sheet has a row whose Point field is the
string "A", and yet the resolver produces the empty series for A — for
every string-parse behavior.  The source coerces the combined sheet
before filtering, which turns the Point strings into numbers or null, so
the strict-equality filter `r[Point] === P` never matches. -/
theorem C1_fallback_filter_always_empty (parse : String → JSNum) :
    jsLookup demoWorkbook (buildPointKey "A") = none ∧
    (∃ r ∈ sheetRows demoWorkbook "per_step_all",
        jsLookup r "Point" = some (JSValue.str "A")) ∧
    jsLookup (resolveStore parse demoWorkbook) "A" = some [] := by
  refine ⟨by decide,
    ⟨[("Point", JSValue.str "A"), ("t_k", JSValue.num (JSNum.finite 0)),
      ("push_mm", JSValue.num (JSNum.finite 1))],
      by simp [demoWorkbook, sheetRows, jsLookup, List.find?], by decide⟩, ?_⟩
  unfold resolveStore
  rw [jsLookup_points_map (resolvePoint parse demoWorkbook) "A" (by decide)]
  have hsm : jsLookup demoWorkbook (buildPointKey "A") = none := by decide
  have hfil : ∀ (rs : List SeriesRow),
      rs.filter (fun r => cellStrictEqStr (jsLookup r "Point") "A") = [] :=
    fun rs => List.filter_eq_nil_iff.mpr
      (fun r _ => by simp [cellStrictEqStr_false])
  unfold resolvePoint
  rw [hsm]
  simp [hfil, coerceRows, sortByTk, List.mergeSort_nil]

/-! ## C10: idempotence of row normalization -/

/-- Coercion outputs are good cells. -/
theorem goodCell_numberOrNull (parse : String → JSNum) (v : JSValue) :
    GoodCell (numberOrNull parse v) :=
  numberOrNull_shape parse v

/-- Re-coercing a good cell (read back as a JS scalar) returns it unchanged. -/
theorem numberOrNull_cellToJS (parse : String → JSNum) (c : Option JSNum)
    (hc : GoodCell c) : numberOrNull parse (cellToJS c) = c := by
  rcases hc with rfl | ⟨q, rfl⟩
  · rfl
  · rfl

/-- The per-field coercion is `numberOrNull` on both regex branches. -/
theorem coerceField_eq (parse : String → JSNum) (k : String) (v : JSValue) :
    (if isTimeKey k then formatTime parse v else numberOrNull parse v) =
      numberOrNull parse v := by
  unfold formatTime
  split <;> rfl

/-- Every cell of a coerced field map is good. -/
theorem coerceFields_good (parse : String → JSNum) (r : RawRecord) :
    ∀ p ∈ coerceFields parse r, GoodCell p.2 := by
  intro p hp
  unfold coerceFields at hp
  obtain ⟨q, _, rfl⟩ := List.mem_map.mp hp
  rw [coerceField_eq]
  exact goodCell_numberOrNull parse q.2

/-- `jsSet` keeps cells good when the stored value is good. -/
theorem jsSet_good (k : String) (v : Option JSNum) (hv : GoodCell v)
    (l : SeriesRow) (hl : ∀ p ∈ l, GoodCell p.2) :
    ∀ p ∈ jsSet l k v, GoodCell p.2 := by
  intro p hp
  unfold jsSet at hp
  split at hp
  · obtain ⟨q, hq, rfl⟩ := List.mem_map.mp hp
    split
    · exact hv
    · exact hl q hq
  · rcases List.mem_append.mp hp with h | h
    · exact hl p h
    · rcases List.mem_singleton.mp h with rfl
      exact hv

/-- Coercing the read-back of a row of good cells is the identity. -/
theorem coerceFields_rowToJS (parse : String → JSNum) :
    ∀ out : SeriesRow, (∀ p ∈ out, GoodCell p.2) →
      coerceFields parse (rowToJS out) = out
  | [], _ => rfl
  | p :: out, h => by
    unfold coerceFields rowToJS
    rw [List.map_cons, List.map_cons]
    have hhead :
        (p.1, if isTimeKey p.1 then formatTime parse (cellToJS p.2)
          else numberOrNull parse (cellToJS p.2)) = p := by
      rw [coerceField_eq, numberOrNull_cellToJS parse p.2 (h p (by simp))]
    rw [hhead]
    have htail := coerceFields_rowToJS parse out (fun q hq => h q (by simp [hq]))
    unfold coerceFields rowToJS at htail
    rw [htail]

/-- Reading the time field of the read-back row. -/
theorem jsLookup_rowToJS (out : SeriesRow) (k : String) :
    jsLookup (rowToJS out) k = (jsLookup out k).map cellToJS := by
  unfold rowToJS
  exact jsLookup_map (fun _ c => cellToJS c) k out

/-- Reading a field of a coerced field map. -/
theorem jsLookup_coerceFields (parse : String → JSNum) (r : RawRecord)
    (k : String) :
    jsLookup (coerceFields parse r) k =
      (jsLookup r k).map (numberOrNull parse) := by
  unfold coerceFields
  have h := jsLookup_map
    (fun k v => if isTimeKey k then formatTime parse v else numberOrNull parse v)
    k r
  rw [h]
  cases jsLookup r k with
  | none => rfl
  | some v => simp [coerceField_eq]

/-- Unfolding `coerceRow` when the record has a `t` field. -/
theorem coerceRow_eq_some (parse : String → JSNum) (r : RawRecord)
    (v : JSValue) (ht : jsLookup r "t" = some v) :
    coerceRow parse r =
      (if tkIsNull (coerceFields parse r) && v != JSValue.null &&
          v != JSValue.undef then
        jsSet (coerceFields parse r) "t_k" (numberOrNull parse v)
      else coerceFields parse r) := by
  unfold coerceRow
  rw [ht]

/-- Unfolding `coerceRow` when the record has no `t` field. -/
theorem coerceRow_eq_none (parse : String → JSNum) (r : RawRecord)
    (ht : jsLookup r "t" = none) :
    coerceRow parse r = coerceFields parse r := by
  unfold coerceRow
  rw [ht]

/-- One-row idempotence: re-normalizing a normalized row changes nothing. -/
theorem coerceRow_idem (parse : String → JSNum) (r : RawRecord) :
    coerceRow parse (rowToJS (coerceRow parse r)) = coerceRow parse r := by
  have hgoodO := coerceFields_good parse r
  cases ht : jsLookup r "t" with
  | none =>
    rw [coerceRow_eq_none parse r ht]
    have ht2 : jsLookup (rowToJS (coerceFields parse r)) "t" = none := by
      rw [jsLookup_rowToJS, jsLookup_coerceFields, ht]
      rfl
    rw [coerceRow_eq_none parse _ ht2, coerceFields_rowToJS parse _ hgoodO]
  | some v =>
    have hOt : jsLookup (coerceFields parse r) "t" =
        some (numberOrNull parse v) := by
      rw [jsLookup_coerceFields, ht]
      rfl
    rw [coerceRow_eq_some parse r v ht]
    by_cases hb : (tkIsNull (coerceFields parse r) && v != JSValue.null &&
        v != JSValue.undef) = true
    · rw [if_pos hb]
      have hgoodR : ∀ p ∈ jsSet (coerceFields parse r) "t_k"
          (numberOrNull parse v), GoodCell p.2 :=
        jsSet_good "t_k" _ (goodCell_numberOrNull parse v) _ hgoodO
      have hRt : jsLookup (jsSet (coerceFields parse r) "t_k"
          (numberOrNull parse v)) "t" = some (numberOrNull parse v) := by
        rw [jsLookup_jsSet_ne "t_k" "t" _ (by decide), hOt]
      have hRtk : jsLookup (jsSet (coerceFields parse r) "t_k"
          (numberOrNull parse v)) "t_k" = some (numberOrNull parse v) :=
        jsLookup_jsSet_self "t_k" _ _
      have ht2 : jsLookup (rowToJS (jsSet (coerceFields parse r) "t_k"
          (numberOrNull parse v))) "t" =
          some (cellToJS (numberOrNull parse v)) := by
        rw [jsLookup_rowToJS, hRt]
        rfl
      rw [coerceRow_eq_some parse _ _ ht2,
        coerceFields_rowToJS parse _ hgoodR]
      rcases goodCell_numberOrNull parse v with hc | ⟨q, hc⟩
      · -- t coerced to null: the read-back t is null, so the guard fails
        rw [hc]
        simp [cellToJS]
      · -- t coerced to a number: t_k now holds it, so the guard fails
        have htkR : tkIsNull (jsSet (coerceFields parse r) "t_k"
            (numberOrNull parse v)) = false := by
          unfold tkIsNull
          rw [hRtk, hc]
        rw [htkR]
        simp
    · rw [if_neg hb]
      have ht2 : jsLookup (rowToJS (coerceFields parse r)) "t" =
          some (cellToJS (numberOrNull parse v)) := by
        rw [jsLookup_rowToJS, hOt]
        rfl
      rw [coerceRow_eq_some parse _ _ ht2,
        coerceFields_rowToJS parse _ hgoodO]
      by_cases htk : tkIsNull (coerceFields parse r) = true
      · -- the original guard failed on v being null or undefined
        rcases v with _ | _ | s | n | b
        · have hcv : numberOrNull parse JSValue.null = none := rfl
          rw [hcv]
          simp [cellToJS]
        · have hcv : numberOrNull parse JSValue.undef = none := rfl
          rw [hcv]
          simp [cellToJS]
        · exact absurd (by rw [htk]; rfl) hb
        · exact absurd (by rw [htk]; rfl) hb
        · exact absurd (by rw [htk]; rfl) hb
      · -- t_k was already a number, and still is on the second pass
        rw [Bool.eq_false_iff.mpr htk]
        simp

/-- C10: row normalization is idempotent — applying `coerceRows` to its own
output (read back as records) returns the same row sequence, so the
resolver's re-coercion of already-coerced combined-sheet rows changes
nothing. -/
theorem C10_coerceRows_idempotent (parse : String → JSNum)
    (rows : List RawRecord) :
    coerceRows parse ((coerceRows parse rows).map rowToJS) =
      coerceRows parse rows := by
  unfold coerceRows
  rw [List.map_map, List.map_map]
  apply List.map_congr_left
  intro r _
  exact coerceRow_idem parse r

/-! ## Accumulator lemmas for the domain engine -/

/-- One update keeps the accumulator well-formed. -/
theorem accWF_upd1 (acc : Option (ℚ × ℚ)) (v : ℚ) (h : accWF acc) :
    accWF (updMinMax1 acc v) := by
  cases acc with
  | none => exact le_refl v
  | some lh =>
    show (if v < lh.1 then v else lh.1) ≤ (if v > lh.2 then v else lh.2)
    have hlh : lh.1 ≤ lh.2 := h
    split_ifs <;> linarith

/-- A whole scan keeps the accumulator well-formed. -/
theorem accWF_upd (vs : List ℚ) : ∀ acc : Option (ℚ × ℚ), accWF acc →
    accWF (updMinMax acc vs) := by
  induction vs with
  | nil => exact fun acc h => h
  | cons v vs ih => exact fun acc h => ih _ (accWF_upd1 acc v h)

/-- Updates only widen the bracket. -/
theorem accBounds_upd1 (acc : Option (ℚ × ℚ)) (w v : ℚ)
    (h : accBounds acc v) : accBounds (updMinMax1 acc w) v := by
  obtain ⟨lh, rfl, h1, h2⟩ := h
  refine ⟨_, rfl, ?_, ?_⟩ <;>
    · show _
      split_ifs <;> linarith

/-- A value just seen is bracketed. -/
theorem accBounds_seen (acc : Option (ℚ × ℚ)) (v : ℚ) :
    accBounds (updMinMax1 acc v) v := by
  cases acc with
  | none => exact ⟨(v, v), rfl, le_refl v, le_refl v⟩
  | some lh =>
    refine ⟨_, rfl, ?_, ?_⟩ <;>
      · show _
        split_ifs <;> linarith

/-- A whole scan only widens the bracket. -/
theorem accBounds_upd (vs : List ℚ) : ∀ (acc : Option (ℚ × ℚ)) (v : ℚ),
    accBounds acc v → accBounds (updMinMax acc vs) v := by
  induction vs with
  | nil => exact fun acc v h => h
  | cons w vs ih => exact fun acc v h => ih _ v (accBounds_upd1 acc w v h)

/-- Every scanned value ends up bracketed by the scan's result. -/
theorem accBounds_mem (vs : List ℚ) : ∀ (acc : Option (ℚ × ℚ)) (v : ℚ),
    v ∈ vs → accBounds (updMinMax acc vs) v := by
  induction vs with
  | nil => intro acc v h; cases h
  | cons w vs ih =>
    intro acc v h
    rcases List.mem_cons.mp h with rfl | h
    · exact accBounds_upd vs _ v (accBounds_seen acc v)
    · exact ih _ v h

/-- A bracketed value does not move the accumulator. -/
theorem updMinMax1_absorb (acc : Option (ℚ × ℚ)) (v : ℚ)
    (h : accBounds acc v) : updMinMax1 acc v = acc := by
  obtain ⟨lh, rfl, h1, h2⟩ := h
  show some (_, _) = some lh
  rw [if_neg (by linarith), if_neg (by linarith)]

/-- A scan of already-bracketed values does not move the accumulator. -/
theorem updMinMax_absorb (vs : List ℚ) : ∀ acc : Option (ℚ × ℚ),
    (∀ v ∈ vs, accBounds acc v) → updMinMax acc vs = acc := by
  induction vs with
  | nil => exact fun acc _ => rfl
  | cons w vs ih =>
    intro acc h
    show updMinMax (updMinMax1 acc w) vs = acc
    rw [updMinMax1_absorb acc w (h w (by simp))]
    exact ih acc (fun v hv => h v (by simp [hv]))

/-- Rescanning the same values is the identity (the local computation
rescans the times once per metric). -/
theorem updMinMax_idem (acc : Option (ℚ × ℚ)) (vs : List ℚ) :
    updMinMax (updMinMax acc vs) vs = updMinMax acc vs :=
  updMinMax_absorb vs _ (fun v hv => accBounds_mem vs acc v hv)

/-- A scan splits over append. -/
theorem updMinMax_append (acc : Option (ℚ × ℚ)) (l₁ l₂ : List ℚ) :
    updMinMax acc (l₁ ++ l₂) = updMinMax (updMinMax acc l₁) l₂ :=
  List.foldl_append updMinMax1 acc l₁ l₂

/-- A fold of per-item scans is the scan of the flattened value list. -/
theorem foldl_updMinMax_flat {γ : Type} (f : γ → List ℚ) (l : List γ) :
    ∀ acc : Option (ℚ × ℚ),
      l.foldl (fun a x => updMinMax a (f x)) acc =
        updMinMax acc (l.flatMap f) := by
  induction l with
  | nil => exact fun acc => rfl
  | cons x l ih =>
    intro acc
    show l.foldl _ (updMinMax acc (f x)) = _
    rw [ih, List.flatMap_cons, updMinMax_append]

/-- The paired time/metric row fold of the local computation splits into
its two independent scans. -/
theorem local_fold_split (sm : Bool) (m : Metric) (rows : List SeriesRow) :
    ∀ t y : Option (ℚ × ℚ),
      rows.foldl (fun acc r => (updMinMax acc.1 (rowTk r).toList,
          updMinMax acc.2 (rowMetricVals sm m r))) (t, y) =
        (updMinMax t (rows.flatMap (fun r => (rowTk r).toList)),
          updMinMax y (rows.flatMap (rowMetricVals sm m))) := by
  induction rows with
  | nil => intro t y; rfl
  | cons r rows ih =>
    intro t y
    rw [List.foldl_cons, List.flatMap_cons, List.flatMap_cons,
      updMinMax_append, updMinMax_append]
    exact ih _ _

/-- The `pad || fallback` expression is positive whenever lo ≤ hi. -/
theorem pad_pos (l h ratio fb : ℚ) (hlh : l ≤ h) (hr : 0 ≤ ratio)
    (hf : 0 < fb) :
    0 < if (h - l) * ratio = 0 then fb else (h - l) * ratio := by
  split
  · exact hf
  · exact lt_of_le_of_ne (mul_nonneg (by linarith) hr) (Ne.symm (by assumption))

/-- The y-domain finish yields a strictly ordered pair on a well-formed
accumulator. -/
theorem yFromAcc_lt (acc : Option (ℚ × ℚ)) (h : accWF acc) :
    (yFromAcc acc).1 < (yFromAcc acc).2 := by
  cases acc with
  | none => norm_num [yFromAcc]
  | some lh =>
    have hlh : lh.1 ≤ lh.2 := h
    have hp := pad_pos lh.1 lh.2 (5 / 100) 1 hlh (by norm_num) (by norm_num)
    show lh.1 - _ < lh.2 + _
    linarith

/-- The x-domain finish yields a strictly ordered pair on a well-formed
accumulator. -/
theorem xFromAcc_lt (acc : Option (ℚ × ℚ)) (h : accWF acc) :
    (xFromAcc acc).1 < (xFromAcc acc).2 := by
  cases acc with
  | none => norm_num [xFromAcc]
  | some lh =>
    have hlh : lh.1 ≤ lh.2 := h
    have hp := pad_pos lh.1 lh.2 (2 / 100) (1 / 100) hlh (by norm_num)
      (by norm_num)
    show lh.1 - _ < lh.2 + _
    linarith

/-- The y-domain finish strictly contains the scanned extremes. -/
theorem yFromAcc_strict (lh : ℚ × ℚ) (h : lh.1 ≤ lh.2) :
    (yFromAcc (some lh)).1 < lh.1 ∧ lh.2 < (yFromAcc (some lh)).2 := by
  have hp := pad_pos lh.1 lh.2 (5 / 100) 1 h (by norm_num) (by norm_num)
  constructor
  · show lh.1 - _ < lh.1
    linarith
  · show lh.2 < lh.2 + _
    linarith

/-! ## Normal forms of the domain computations -/

/-- The nested global scan is the flat scan of the contributed values. -/
theorem metricAcc_eq (sm : Bool) (store : PointStore) (m : Metric) :
    metricAcc sm store m = updMinMax none (storeMetricVals sm m store) := by
  unfold metricAcc storeMetricVals
  have h1 : ∀ (rows : List SeriesRow) (acc : Option (ℚ × ℚ)),
      rows.foldl (fun a r => updMinMax a (rowMetricVals sm m r)) acc =
        updMinMax acc (rows.flatMap (rowMetricVals sm m)) :=
    fun rows acc => foldl_updMinMax_flat (rowMetricVals sm m) rows acc
  simp only [h1]
  exact foldl_updMinMax_flat _ store none

/-- The nested global time scan is the flat scan of the time values. -/
theorem globalXAcc_eq (store : PointStore) :
    computeGlobalXDomain store =
      xFromAcc (updMinMax none (storeTkVals store)) := by
  unfold computeGlobalXDomain storeTkVals
  have h1 : ∀ (rows : List SeriesRow) (acc : Option (ℚ × ℚ)),
      rows.foldl (fun a r => updMinMax a (rowTk r).toList) acc =
        updMinMax acc (rows.flatMap (fun r => (rowTk r).toList)) :=
    fun rows acc => foldl_updMinMax_flat (fun r => (rowTk r).toList) rows acc
  simp only [h1]
  rw [foldl_updMinMax_flat _ store none]

/-- The time component of one local metric iteration. -/
theorem localMetricStep_fst (sm : Bool) (rows : List SeriesRow)
    (t : Option (ℚ × ℚ)) (m : Metric) :
    (localMetricStep sm rows t m).1 =
      updMinMax t (rows.flatMap (fun r => (rowTk r).toList)) := by
  show (rows.foldl (fun acc r =>
      (updMinMax acc.1 (rowTk r).toList,
        updMinMax acc.2 (rowMetricVals sm m r))) (t, none)).1 = _
  rw [local_fold_split]

/-- The y component of one local metric iteration. -/
theorem localMetricStep_snd (sm : Bool) (rows : List SeriesRow)
    (t : Option (ℚ × ℚ)) (m : Metric) :
    (localMetricStep sm rows t m).2 =
      (m.key, yFromAcc (updMinMax none (rows.flatMap (rowMetricVals sm m)))) := by
  show (m.key, yFromAcc ((rows.foldl (fun acc r =>
      (updMinMax acc.1 (rowTk r).toList,
        updMinMax acc.2 (rowMetricVals sm m r))) (t, none)).2)) = _
  rw [local_fold_split]

/-- Normal form of `computeLocalDomains`: per metric, the y-domain of that
metric's flat value scan; for x, the time scan (rescanned once per metric,
which is idempotent). -/
theorem computeLocalDomains_eq (rows : List SeriesRow) (sm : Bool) :
    computeLocalDomains rows sm =
      ⟨METRICS.map (fun m =>
          (m.key, yFromAcc (updMinMax none (rows.flatMap (rowMetricVals sm m))))),
        xFromAcc (updMinMax none (rows.flatMap (fun r => (rowTk r).toList)))⟩ := by
  unfold computeLocalDomains
  simp only [METRICS, List.foldl_cons, List.foldl_nil, localMetricStep_fst,
    localMetricStep_snd, updMinMax_idem, List.map_cons, List.map_nil,
    List.nil_append, List.cons_append]

/-! ## C3: domains are always finite and non-degenerate -/

/-- C3: for every store and row sequence (empty ones and all-missing ones
included) the global y-domain, global time-domain and local domain
computations return intervals with low strictly less than high.  All
values are rationals, hence finite by construction of the model. -/
theorem C3_domains_nondegenerate :
    (∀ (store : PointStore) (sm : Bool),
      ∀ e ∈ computeGlobalDomains store sm, e.2.1 < e.2.2) ∧
    (∀ store : PointStore,
      (computeGlobalXDomain store).1 < (computeGlobalXDomain store).2) ∧
    (∀ (rows : List SeriesRow) (sm : Bool),
      (computeLocalDomains rows sm).x.1 < (computeLocalDomains rows sm).x.2 ∧
      ∀ e ∈ (computeLocalDomains rows sm).y, e.2.1 < e.2.2) := by
  refine ⟨?_, ?_, ?_⟩
  · intro store sm e he
    obtain ⟨m, _, rfl⟩ := List.mem_map.mp he
    exact yFromAcc_lt _ (by rw [metricAcc_eq]; exact accWF_upd _ none trivial)
  · intro store
    rw [globalXAcc_eq]
    exact xFromAcc_lt _ (accWF_upd _ none trivial)
  · intro rows sm
    rw [computeLocalDomains_eq]
    constructor
    · exact xFromAcc_lt _ (accWF_upd _ none trivial)
    · intro e he
      obtain ⟨m, _, rfl⟩ := List.mem_map.mp he
      exact yFromAcc_lt _ (accWF_upd _ none trivial)

/-- Witness for C3 at the empty store and the displacement metric. -/
theorem C3_domains_nondegenerate_witness :
    (("disp", ((-11 / 10 : ℚ), (11 / 10 : ℚ))) ∈
      computeGlobalDomains [] true) ∧
    ((-11 / 10 : ℚ) < (11 / 10 : ℚ)) := by
  have hmem : ("disp", ((-11 / 10 : ℚ), (11 / 10 : ℚ))) ∈
      computeGlobalDomains [] true := by
    simp [computeGlobalDomains, METRICS, metricAcc, yFromAcc, updMinMax]
    norm_num
  exact ⟨hmem, C3_domains_nondegenerate.1 [] true _ hmem⟩

/-! ## C4: global domains strictly contain every contributing value -/

/-- C4: whenever a store contributes a finite active-field value to a
metric, the computed global y-domain for that metric strictly contains it
— the padding leaves positive margin below the minimum and above the
maximum contributing value. -/
theorem C4_global_domain_strictly_contains (store : PointStore) (sm : Bool)
    (m : Metric) (v : ℚ) (hm : m ∈ METRICS)
    (hv : v ∈ storeMetricVals sm m store) :
    (m.key, yFromAcc (metricAcc sm store m)) ∈ computeGlobalDomains store sm ∧
    (yFromAcc (metricAcc sm store m)).1 < v ∧
    v < (yFromAcc (metricAcc sm store m)).2 := by
  refine ⟨List.mem_map.mpr ⟨m, hm, rfl⟩, ?_⟩
  have hb := accBounds_mem _ none v hv
  rw [metricAcc_eq]
  obtain ⟨lh, heq, h1, h2⟩ := hb
  rw [heq]
  obtain ⟨hs1, hs2⟩ := yFromAcc_strict lh (le_trans h1 h2)
  exact ⟨lt_of_lt_of_le hs1 h1, lt_of_le_of_lt h2 hs2⟩

/-- Witness for C4 on the two-point self-test scenario: the raw-mode
displacement domain has low < 0 and high > 5. -/
theorem C4_global_domain_strictly_contains_witness :
    (dispMetric ∈ METRICS ∧
      (0 : ℚ) ∈ storeMetricVals false dispMetric testStore ∧
      (5 : ℚ) ∈ storeMetricVals false dispMetric testStore) ∧
    (yFromAcc (metricAcc false testStore dispMetric)).1 < 0 ∧
    (5 : ℚ) < (yFromAcc (metricAcc false testStore dispMetric)).2 :=
  ⟨⟨by decide, by decide, by decide⟩,
    (C4_global_domain_strictly_contains testStore false dispMetric 0
      (by decide) (by decide)).2.1,
    (C4_global_domain_strictly_contains testStore false dispMetric 5
      (by decide) (by decide)).2.2⟩

/-! ## C9: local domains agree with global domains on a singleton store -/

/-- C9: for every row sequence and smoothed flag, the local domain
computation agrees with the global ones applied to a singleton store
holding just those rows under any point name: same per-metric y-domains
and same time domain. -/
theorem C9_local_eq_singleton_global (rows : List SeriesRow) (sm : Bool)
    (P : String) :
    (computeLocalDomains rows sm).y = computeGlobalDomains [(P, rows)] sm ∧
    (computeLocalDomains rows sm).x = computeGlobalXDomain [(P, rows)] := by
  rw [computeLocalDomains_eq]
  constructor
  · unfold computeGlobalDomains
    simp only [metricAcc_eq, storeMetricVals, List.flatMap_cons,
      List.flatMap_nil, List.append_nil]
  · rw [globalXAcc_eq]
    simp only [storeTkVals, List.flatMap_cons, List.flatMap_nil,
      List.append_nil]

/-! ## Remaining witnesses -/

/-- Witness for the amended C6 at the single forward step from "A". -/
theorem C6_step_wraps_witness :
    ("A" ∈ POINTS ∧ 0 ≤ jsIndexOf POINTS "A" + 1 + 11) ∧
    (∃ q, step 1 "A" = some q ∧ q ∈ POINTS ∧
      jsIndexOf POINTS q = (jsIndexOf POINTS "A" + 1) % 11) :=
  ⟨⟨by decide, by decide⟩, C6_step_wraps "A" 1 (by decide) (by decide)⟩

/-- Witness for C7 at the point "A". -/
theorem C7_navigation_cyclic_witness :
    ("A" ∈ POINTS) ∧
    ((step 1 "A").bind (step (-1)) = some "A" ∧
      (step (-1) "A").bind (step 1) = some "A" ∧
      (fun o : Option String => o.bind (step 1))^[11] (some "A") = some "A") :=
  ⟨by decide, C7_navigation_cyclic "A" (by decide)⟩

/-- Witness for C8: uploading the empty workbook over the initial state. -/
theorem C8_onUpload_replaces_store_witness :
    ("A" ∈ POINTS) ∧
    jsLookup (onUpload (fun _ => JSNum.nan) initialState []).pointSeries "A" =
      some (resolvePoint (fun _ => JSNum.nan) [] "A") :=
  ⟨by decide,
    (C8_onUpload_replaces_store (fun _ => JSNum.nan) initialState
      []).2.2.2.2 "A" (by decide)⟩

end WireViz
